import Mathlib

/-!
Verification of the client-engine load-balancing SDK.

The development shallowly embeds the TypeScript sources:
- the undefined-sentinel payload codec of the RPC wire format,
- the `RedisLoadBalancer` dispatcher (`consume`, `getLowestLoadInfo`,
  `fetchLoads`, `reportLoad`, `close`),
- the `RedisPRCNode.call` request/response correlation,
- the `Game` / `GameManager` / `LocalMatchMaker` seat-reservation
  protocol and the `autoDestroy` idle poller.

JavaScript numbers that the code only ever uses as integer loads are
modelled as `Int`; JavaScript objects are modelled as association lists
whose update semantics (`{...obj, [k]: v}`) is `objUpsert`.
-/

namespace ClientEngine

/-! ## The undefined-sentinel codec (rpc source file)

JSON-style values as the payloads travelling over the wire: scalars,
arrays and plain objects, plus `undef` for the JavaScript `undefined`
that the codec is designed to carry. -/

inductive JVal where
  | undef : JVal
  | null : JVal
  | boolean : Bool → JVal
  | num : Int → JVal
  | str : String → JVal
  | arr : List JVal → JVal
  | obj : List (String × JVal) → JVal

mutual
/-- Structural equality of payload values, the meaning of the JavaScript
`===` test on the scalar values the codec compares. -/
def beqJVal : JVal → JVal → Bool
  | .undef, .undef => true
  | .null, .null => true
  | .boolean a, .boolean b => a == b
  | .num a, .num b => a == b
  | .str a, .str b => a == b
  | .arr a, .arr b => beqJValList a b
  | .obj a, .obj b => beqJValObj a b
  | _, _ => false

def beqJValList : List JVal → List JVal → Bool
  | [], [] => true
  | x :: xs, y :: ys => beqJVal x y && beqJValList xs ys
  | _, _ => false

def beqJValObj : List (String × JVal) → List (String × JVal) → Bool
  | [], [] => true
  | (k₁, v₁) :: xs, (k₂, v₂) :: ys => k₁ == k₂ && beqJVal v₁ v₂ && beqJValObj xs ys
  | _, _ => false
end

instance : BEq JVal := ⟨beqJVal⟩

/-- The sentinel string substituted for `undefined` on the wire. -/
def RedisUndefined : String := "__RLB_undefined"

mutual
/-- Source function `replace(object, prevVal, newVal)`: returns `newVal`
when the value equals `prevVal`, otherwise clones, recursing into arrays
and plain objects. -/
def replace (object prevVal newVal : JVal) : JVal :=
  if object == prevVal then newVal
  else
    match object with
    | .arr xs => .arr (replaceList xs prevVal newVal)
    | .obj fs => .obj (replaceFields fs prevVal newVal)
    | v => v

/-- The recursion of `replace` over the elements of an array. -/
def replaceList (xs : List JVal) (prevVal newVal : JVal) : List JVal :=
  match xs with
  | [] => []
  | x :: rest => replace x prevVal newVal :: replaceList rest prevVal newVal

/-- The recursion of `replace` over the values of an object's fields. -/
def replaceFields (fs : List (String × JVal)) (prevVal newVal : JVal) :
    List (String × JVal) :=
  match fs with
  | [] => []
  | (k, v) :: rest => (k, replace v prevVal newVal) :: replaceFields rest prevVal newVal
end

/-- Source binding `encodeUndefined = replace(_, undefined, RedisUndefined)`. -/
def encodeUndefined (object : JVal) : JVal :=
  replace object .undef (.str RedisUndefined)

/-- Source binding `decodeUndefined = replace(_, RedisUndefined, undefined)`. -/
def decodeUndefined (object : JVal) : JVal :=
  replace object (.str RedisUndefined) .undef

mutual
/-- A value is sentinel-free when the sentinel string does not occur in
it as an actual (string) value. -/
def sentinelFree : JVal → Bool
  | .str s => !(s == RedisUndefined)
  | .arr xs => sentinelFreeList xs
  | .obj fs => sentinelFreeFields fs
  | _ => true

def sentinelFreeList : List JVal → Bool
  | [] => true
  | x :: rest => sentinelFree x && sentinelFreeList rest

def sentinelFreeFields : List (String × JVal) → Bool
  | [] => true
  | (_, v) :: rest => sentinelFree v && sentinelFreeFields rest
end

/-! ## RedisLoadBalancer (redis-load-balancer.ts) -/

/-- Lodash `minBy` over the pairs of a load map: the pair with minimal
load; on ties the earliest pair wins (lodash only replaces the current
minimum on a strictly smaller value). -/
def minByLoad : List (String × Int) → Option (String × Int)
  | [] => none
  | x :: xs => some (xs.foldl (fun acc y => if y.2 < acc.2 then y else acc) x)

/-- JavaScript object update `{...obj, [k]: v}` on an association-list
model of an object: a present key keeps its position and gets the new
value, an absent key is appended. -/
def objUpsert (l : List (String × Int)) (k : String) (v : Int) : List (String × Int) :=
  if l.any (fun p => p.1 == k) then
    l.map (fun p => if p.1 == k then (k, v) else p)
  else l ++ [(k, v)]

/-- State of a `RedisLoadBalancer` relevant to dispatching: the `open`
flag (named `isOpen` because `open` is a Lean keyword), the `online`
flag (the source's optional `_online` starts `undefined`, which the
`if (!this.online)` test treats as `false`), the node id, the pool id,
and the fetched load map `loads`. -/
structure RedisLoadBalancer where
  isOpen : Bool
  online : Bool
  id : String
  poolId : String
  loads : List (String × Int)

/-- Errors the RPC transport can produce at a caller. -/
inductive RpcError where
  | noSuchPeer
  | callTimeout
  | handlerError
deriving DecidableEq

/-- Outcome of the one RPC call `consume` may issue. -/
inductive RpcOutcome (U : Type) where
  | ok (result : U)
  | fail (e : RpcError)
deriving DecidableEq

/-- The dispatcher-visible error of `consume` on a closed balancer. -/
inductive RLBError where
  | closed
deriving DecidableEq

/-- Observable steps a `consume` invocation takes. -/
inductive ConsumeAction where
  | localConsume
  | rpcCall (nodeId : String)
deriving DecidableEq

/-- Environment of one `consume` invocation: the local consumer's
current load and the result it would return, and the outcome the RPC
transport would deliver if called. -/
structure ConsumeEnv (U : Type) where
  localLoad : Int
  localResult : U
  rpcOutcome : RpcOutcome U

/-- Source method `getLowestLoadInfo`: spreads the local consumer's
load over the fetched map under the node's own id and takes the
minimum-load pair. -/
def getLowestLoadInfo (rlb : RedisLoadBalancer) (localLoad : Int) : Option (String × Int) :=
  minByLoad (objUpsert rlb.loads rlb.id localLoad)

/-- Source method `consume`: throws when closed; consumes locally when
offline; otherwise compares the minimum load against the local load
(`load === localLoad` — ties go local), issuing at most one RPC call
and falling back to the local consumer if it fails. Returns the
result together with the trace of actions taken. The `none` branch of
the match is unreachable (the combined map always contains the self
entry; the source uses a non-null assertion there). -/
def consume {U : Type} (rlb : RedisLoadBalancer) (env : ConsumeEnv U) :
    Except RLBError U × List ConsumeAction :=
  if !rlb.isOpen then (.error .closed, [])
  else if !rlb.online then (.ok env.localResult, [.localConsume])
  else
    match getLowestLoadInfo rlb env.localLoad with
    | none => (.error .closed, [])
    | some (instanceId, load) =>
      if load == env.localLoad then (.ok env.localResult, [.localConsume])
      else
        match env.rpcOutcome with
        | .ok u => (.ok u, [.rpcCall instanceId])
        | .fail _ => (.ok env.localResult, [.rpcCall instanceId, .localConsume])

/-- Decimal digit value of a character, if it is one. -/
def decDigit (c : Char) : Option Nat :=
  if c = '0' then some 0 else if c = '1' then some 1 else if c = '2' then some 2
  else if c = '3' then some 3 else if c = '4' then some 4 else if c = '5' then some 5
  else if c = '6' then some 6 else if c = '7' then some 7 else if c = '8' then some 8
  else if c = '9' then some 9 else none

/-- Parse a non-empty run of decimal digits. -/
def parseNatChars (ds : List Char) : Option Nat :=
  if ds.isEmpty then none
  else ds.foldl (fun acc c => acc.bind (fun n => (decDigit c).map (fun d => n * 10 + d)))
    (some 0)

/-- JavaScript `Number(...)` on the strings this code reads: the
registry writes decimal integer strings (`load.toString()`), which
parse exactly; a non-numeric value (JavaScript `NaN`) is collapsed
to 0, as is the empty string (JavaScript `Number("") === 0`). -/
def toNumber (s : String) : Int :=
  match s.data with
  | '-' :: rest =>
      match parseNatChars rest with
      | some n => -(n : Int)
      | none => 0
  | ds =>
      match parseNatChars ds with
      | some n => (n : Int)
      | none => 0

/-- Accumulating model of `split(":")` keeping only the final segment:
the current segment is reset at each colon and returned at the end. -/
def lastSegmentChars (acc : List Char) : List Char → List Char
  | [] => acc.reverse
  | c :: rest =>
      if c = ':' then lastSegmentChars [] rest else lastSegmentChars (c :: acc) rest

/-- JavaScript `key.split(":").pop()`: the segment after the last colon
(`split` always returns at least one element, so `pop` is total). -/
def lastSegment (s : String) : String := ⟨lastSegmentChars [] s.data⟩

/-- Source method `fetchLoads`, applied to the datastore's answers: the
listed `keys`, and for each listed key the `mget` value (`none` for an
expired key). Mirrors the source exactly: the early return on no keys
leaves the stored map unchanged; otherwise the values are filtered to
the present strings first, and the reduce then indexes `keys` by the
position in the **filtered** array. -/
def fetchLoads (prev : List (String × Int)) (keys : List String)
    (values : List (Option String)) : List (String × Int) :=
  if keys.length == 0 then prev
  else
    (values.filterMap (fun v => v)).enum.foldl
      (fun result iv => objUpsert result (lastSegment (keys.getD iv.1 "")) (toNumber iv.2))
      []

/-- Datastore SET issued by `reportLoad`: key, value, and the `PX`
expiry in milliseconds. -/
structure SetCommand where
  key : String
  value : String
  px : Nat
deriving DecidableEq

/-- Key under which a node reports its load:
`redisPrefix = RDB:{poolId}`, `redisKey = {redisPrefix}:{id}`. -/
def redisLoadKey (poolId nodeId : String) : String :=
  "RDB:" ++ poolId ++ ":" ++ nodeId

/-- The balancer's own load key. -/
def RedisLoadBalancer.redisKey (rlb : RedisLoadBalancer) : String :=
  redisLoadKey rlb.poolId rlb.id

/-- Source method `reportLoad`: returns early when the balancer is not
open (no SET, no timer re-arm); otherwise SETs the load key with the
load as a decimal string and TTL `reportInterval` when online (skips
the SET when offline), and re-arms the periodic timer. The result is
the SET issued (if any) and whether the timer was re-armed. -/
def reportLoad (rlb : RedisLoadBalancer) (reportInterval : Nat) (load : Int) :
    Option SetCommand × Bool :=
  if !rlb.isOpen then (none, false)
  else
    ( if rlb.online then
        some { key := rlb.redisKey, value := toString load, px := reportInterval }
      else none,
      true)

/-- External effects of `close()`. -/
structure CloseEffect where
  deletedKey : String
  rpcDisconnected : Bool
deriving DecidableEq

/-- Source method `close`: sets `open = false`, deletes the node's load
key, disconnects the RPC node, and closes the consumer. -/
def close (rlb : RedisLoadBalancer) : RedisLoadBalancer × CloseEffect :=
  ({ rlb with isOpen := false },
   { deletedKey := rlb.redisKey, rpcDisconnected := true })

/-! ## Pub/sub RPC node (rpc source file) -/

/-- Channel root for a pool: `channelPrefix = RLB:RPC:{poolId}`. -/
def rpcChannelRoot (poolId : String) : String := "RLB:RPC:" ++ poolId

/-- Request channel of a node: `subChannel = {channelPrefix}:{id}`. -/
def rpcRequestChannel (poolId nodeId : String) : String :=
  rpcChannelRoot poolId ++ ":" ++ nodeId

/-- Response channel of a node: `{subChannel}:result`. -/
def rpcResultChannel (poolId nodeId : String) : String :=
  rpcRequestChannel poolId nodeId ++ ":result"

/-- Wire envelope `IPubSubMessage`. -/
structure PubSubMessage (T : Type) where
  id : String
  payload : T
  caller : Option String
deriving DecidableEq

/-- One message delivered to the caller's subscribe connection, with
its channel and its arrival time in ms after `call` subscribed. -/
structure TimedMessage (T : Type) where
  channel : String
  message : PubSubMessage T
  time : Nat
deriving DecidableEq

/-- Default of the `timeout` parameter of `call`. -/
def rpcCallDefaultTimeout : Nat := 15000

/-- Source method `call(nodeId, params, timeout)`, applied to what the
environment does: `subscriberCount` is what the publish returned, and
`incoming` is the stream of messages subsequently delivered to this
node's subscribe connection, in arrival order. A zero subscriber count
throws immediately; otherwise the pipeline
`filter(channel == subChannel:result && id == correlation id) → first()
→ timeout(timeout)` resolves with the payload of the first matching
message if it arrives before `timeout` ms, and errors with a timeout
otherwise. -/
def call {U : Type} (poolId selfId correlationId : String) (timeout : Nat)
    (subscriberCount : Nat) (incoming : List (TimedMessage U)) : Except RpcError U :=
  if subscriberCount == 0 then .error .noSuchPeer
  else
    match incoming.find? (fun m =>
        m.channel == rpcResultChannel poolId selfId && m.message.id == correlationId) with
    | some m => if m.time < timeout then .ok m.message.payload else .error .callTimeout
    | none => .error .callTimeout

/-- Source method `call` with the `timeout` parameter left at its
default of 15000 ms. -/
def callWithDefaultTimeout {U : Type} (poolId selfId correlationId : String)
    (subscriberCount : Nat) (incoming : List (TimedMessage U)) : Except RpcError U :=
  call poolId selfId correlationId rpcCallDefaultTimeout subscriberCount incoming

/-! ## Game, GameManager and LocalMatchMaker (game.ts, game-manager.ts,
matchmaker source file) -/

/-- JavaScript `Set.add` on a list model: no-op when present, append
when absent. -/
def setAdd (l : List String) (x : String) : List String :=
  if x ∈ l then l else l ++ [x]

/-- Seat-relevant state of a `Game`: the class-level `playerLimit`
(seat capacity, excluding the master client), the occupant `players`
(room player list minus the master client), and the reservation set
`registeredPlayers`. -/
structure GameState where
  playerLimit : Int
  players : List String
  registeredPlayers : List String
deriving DecidableEq

/-- Source getter `availableSeatCount`:
`playerLimit - players.length - registeredPlayers.size`. -/
def availableSeatCount (g : GameState) : Int :=
  g.playerLimit - g.players.length - g.registeredPlayers.length

/-- Source method `Game.makeReservation`: adds to the reservation set. -/
def makeReservation (g : GameState) (playerId : String) : GameState :=
  { g with registeredPlayers := setAdd g.registeredPlayers playerId }

/-- Source method `Game.cancelReservation`: deletes from the
reservation set (and does nothing else — in particular it emits no
signal). -/
def cancelReservation (g : GameState) (playerId : String) : GameState :=
  { g with registeredPlayers := g.registeredPlayers.erase playerId }

/-- Error thrown when reserving on a full room. -/
inductive SeatError where
  | roomFull
deriving DecidableEq

/-- A hold timer armed for a reservation. -/
structure HoldTimer where
  playerId : String
  holdTime : Nat
deriving DecidableEq

/-- Default of the `reservationHoldTime` option. -/
def defaultReservationHoldTime : Nat := 10000

/-- Source method `GameManager.reserveSeats`: throws when no seat is
available, otherwise registers the reservation and arms a hold timer
of `reservationHoldTime` ms for the player. -/
def reserveSeats (g : GameState) (playerId : String) (reservationHoldTime : Nat) :
    Except SeatError (GameState × List HoldTimer) :=
  if availableSeatCount g ≤ 0 then .error .roomFull
  else .ok (makeReservation g playerId, [⟨playerId, reservationHoldTime⟩])

/-- Source method `LocalMatchMaker.reserveSeats`: throws when fewer
seats are available than players requested, otherwise registers every
player and arms a hold timer for each. -/
def localReserveSeats (g : GameState) (playerIds : List String)
    (reservationHoldTime : Nat) : Except SeatError (GameState × List HoldTimer) :=
  if availableSeatCount g < playerIds.length then .error .roomFull
  else .ok (playerIds.foldl makeReservation g,
            playerIds.map (fun pid => ⟨pid, reservationHoldTime⟩))

/-- Signals a game or manager can emit towards the load balancer. -/
inductive Signal where
  | loadChange
deriving DecidableEq

/-- The hold-timer callback armed by `reserveSeats`: if the reservation
is still present (`registeredPlayers.has(playerId)`) it cancels it via
`cancelReservation`. The second component is the list of signals the
callback emits — none in the source. -/
def holdTimerFire (g : GameState) (playerId : String) : GameState × List Signal :=
  if playerId ∈ g.registeredPlayers then (cancelReservation g playerId, [])
  else (g, [])

/-- A reserved player arrives: the room appends them to its player
list, and the `PLAYER_ROOM_JOINED` handler in the `Game` constructor
deletes their reservation. Within the scheduler's matchmaking protocol
a player enters a room through a reservation, so this transition
carries the player's registration. -/
def playerJoined (g : GameState) (playerId : String) : GameState :=
  { g with players := g.players ++ [playerId],
           registeredPlayers := g.registeredPlayers.erase playerId }

/-- Transitions of a game's seat state under the scheduler: the two
reserve operations, reservation cancellation, the hold-timer callback,
and the arrival of a reserved player. -/
inductive SchedulerStep : GameState → GameState → Prop where
  | reserve (g : GameState) (pid : String) (holdTime : Nat) (g' : GameState)
      (timers : List HoldTimer)
      (h : reserveSeats g pid holdTime = .ok (g', timers)) : SchedulerStep g g'
  | reserveMany (g : GameState) (pids : List String) (holdTime : Nat) (g' : GameState)
      (timers : List HoldTimer)
      (h : localReserveSeats g pids holdTime = .ok (g', timers)) : SchedulerStep g g'
  | cancel (g : GameState) (pid : String) : SchedulerStep g (cancelReservation g pid)
  | timerFire (g : GameState) (pid : String) : SchedulerStep g (holdTimerFire g pid).1
  | joinReserved (g : GameState) (pid : String) (h : pid ∈ g.registeredPlayers) :
      SchedulerStep g (playerJoined g pid)

/-- Seat-accounting invariant:
`players.length + registeredPlayers.size ≤ playerLimit`, equivalently
`availableSeatCount ≥ 0`. -/
def seatInvariant (g : GameState) : Prop :=
  (g.players.length : Int) + g.registeredPlayers.length ≤ g.playerLimit

/-! ## The autoDestroy wrapper (automation source file) -/

/-- Sequence of `roomIsEmpty()` poll results, one per tick of the
`interval(checkInterval)` timer: `true` when the room is gone or
`players.length + registeredPlayers.size === 0`. -/
abbrev EmptyObservations := List Bool

/-- The `autoDestroy` subscription
`killerTimer.pipe(filter(roomIsEmpty), take(2)).toPromise().then(destroy)`:
the promise resolves — destroying the game — exactly when the filtered
stream has emitted twice, i.e. when the poll has observed the room
empty for the second time. -/
def autoDestroyFires (observations : EmptyObservations) : Bool :=
  ((observations.filter (fun b => b)).take 2).length == 2

/-- Modelled from the spec's words, for comparison: destruction after
two **consecutive** observations of an empty room. -/
def specTwoConsecutiveEmpty : EmptyObservations → Bool
  | b₁ :: b₂ :: rest => (b₁ && b₂) || specTwoConsecutiveEmpty (b₂ :: rest)
  | _ => false

/-! ## Theorems -/

mutual
theorem decode_encode (v : JVal) (h : sentinelFree v = true) :
    replace (replace v .undef (.str RedisUndefined)) (.str RedisUndefined) .undef = v := by
  cases v with
  | undef => simp [replace, beqJVal, BEq.beq]
  | null => simp [replace, beqJVal, BEq.beq]
  | boolean b => simp [replace, beqJVal, BEq.beq]
  | num n => simp [replace, beqJVal, BEq.beq]
  | str s =>
      simp [sentinelFree] at h
      simp [replace, beqJVal, BEq.beq, h]
  | arr xs =>
      simp [sentinelFree] at h
      simp [replace, beqJVal, BEq.beq, decode_encode_list xs h]
  | obj fs =>
      simp [sentinelFree] at h
      simp [replace, beqJVal, BEq.beq, decode_encode_fields fs h]

theorem decode_encode_list (xs : List JVal) (h : sentinelFreeList xs = true) :
    replaceList (replaceList xs .undef (.str RedisUndefined)) (.str RedisUndefined) .undef
      = xs := by
  cases xs with
  | nil => simp [replaceList]
  | cons x rest =>
      simp [sentinelFreeList] at h
      simp [replaceList, decode_encode x h.1, decode_encode_list rest h.2]

theorem decode_encode_fields (fs : List (String × JVal)) (h : sentinelFreeFields fs = true) :
    replaceFields (replaceFields fs .undef (.str RedisUndefined)) (.str RedisUndefined) .undef
      = fs := by
  cases fs with
  | nil => simp [replaceFields]
  | cons f rest =>
      obtain ⟨k, v⟩ := f
      simp [sentinelFreeFields] at h
      simp [replaceFields, decode_encode v h.1, decode_encode_fields rest h.2]
end

/-! ### Helper lemmas about the minimum of the load map -/

theorem foldlMin_mem (xs : List (String × Int)) (x : String × Int) :
    xs.foldl (fun acc y => if y.2 < acc.2 then y else acc) x ∈ x :: xs := by
  induction xs generalizing x with
  | nil => simp
  | cons y ys ih =>
      simp only [List.foldl_cons]
      by_cases hc : y.2 < x.2
      · rw [if_pos hc]
        rcases List.mem_cons.mp (ih y) with h' | h'
        · simp [h']
        · simp [List.mem_cons_of_mem, h']
      · rw [if_neg hc]
        rcases List.mem_cons.mp (ih x) with h' | h'
        · simp [h']
        · simp [List.mem_cons_of_mem, h']

theorem foldlMin_le (xs : List (String × Int)) (x : String × Int) :
    ∀ q ∈ x :: xs, (xs.foldl (fun acc y => if y.2 < acc.2 then y else acc) x).2 ≤ q.2 := by
  induction xs generalizing x with
  | nil =>
      intro q hq
      simp only [List.mem_singleton] at hq
      simp [hq]
  | cons y ys ih =>
      intro q hq
      simp only [List.foldl_cons]
      have hx : (if y.2 < x.2 then y else x).2 ≤ x.2 := by
        by_cases hc : y.2 < x.2
        · rw [if_pos hc]; omega
        · rw [if_neg hc]
      have hy : (if y.2 < x.2 then y else x).2 ≤ y.2 := by
        by_cases hc : y.2 < x.2
        · rw [if_pos hc]
        · rw [if_neg hc]; omega
      have hhead := ih (if y.2 < x.2 then y else x) _ (List.mem_cons_self _ _)
      rcases List.mem_cons.mp hq with rfl | hq'
      · exact le_trans hhead hx
      rcases List.mem_cons.mp hq' with rfl | hq''
      · exact le_trans hhead hy
      · exact ih _ q (List.mem_cons_of_mem _ hq'')

theorem minByLoad_mem {l : List (String × Int)} {p : String × Int}
    (h : minByLoad l = some p) : p ∈ l := by
  cases l with
  | nil => simp [minByLoad] at h
  | cons x xs =>
      simp only [minByLoad, Option.some.injEq] at h
      exact h ▸ foldlMin_mem xs x

theorem minByLoad_le {l : List (String × Int)} {p : String × Int}
    (h : minByLoad l = some p) : ∀ q ∈ l, p.2 ≤ q.2 := by
  cases l with
  | nil => simp [minByLoad] at h
  | cons x xs =>
      simp only [minByLoad, Option.some.injEq] at h
      exact h ▸ foldlMin_le xs x

theorem minByLoad_isSome {l : List (String × Int)} (h : l ≠ []) :
    ∃ p, minByLoad l = some p := by
  cases l with
  | nil => exact absurd rfl h
  | cons x xs => exact ⟨_, rfl⟩

/-! ### Helper lemmas about the object update -/

theorem objUpsert_ne_nil (l : List (String × Int)) (k : String) (v : Int) :
    objUpsert l k v ≠ [] := by
  unfold objUpsert
  split
  next h =>
    intro hm
    rw [List.map_eq_nil_iff] at hm
    subst hm
    simp at h
  next => simp

theorem objUpsert_self_mem (l : List (String × Int)) (k : String) (v : Int) :
    (k, v) ∈ objUpsert l k v := by
  unfold objUpsert
  split
  next h =>
    rw [List.any_eq_true] at h
    obtain ⟨p, hp, hpk⟩ := h
    refine List.mem_map.mpr ⟨p, hp, ?_⟩
    simp [hpk]
  next => simp

theorem objUpsert_key_eq {l : List (String × Int)} {k : String} {v : Int}
    {p : String × Int} (hp : p ∈ objUpsert l k v) (hk : p.1 = k) : p = (k, v) := by
  unfold objUpsert at hp
  split at hp
  next =>
    obtain ⟨q, hq, hqe⟩ := List.mem_map.mp hp
    by_cases hc : q.1 = k
    · simpa [hc] using hqe.symm
    · rw [if_neg (by simpa using hc)] at hqe
      exact absurd (hqe ▸ hk) hc
  next h =>
    rcases List.mem_append.mp hp with h1 | h2
    · exfalso
      exact h (List.any_eq_true.mpr ⟨p, h1, by simp [hk]⟩)
    · simpa using h2

theorem objUpsert_mem_of_ne {l : List (String × Int)} {k : String} {v : Int}
    {p : String × Int} (hp : p ∈ objUpsert l k v) (hk : p.1 ≠ k) : p ∈ l := by
  unfold objUpsert at hp
  split at hp
  next =>
    obtain ⟨q, hq, hqe⟩ := List.mem_map.mp hp
    by_cases hc : q.1 = k
    · rw [if_pos (by simpa using hc)] at hqe
      exact absurd (hqe ▸ rfl) hk
    · rw [if_neg (by simpa using hc)] at hqe
      exact hqe ▸ hq
  next =>
    rcases List.mem_append.mp hp with h1 | h2
    · exact h1
    · exfalso
      simp only [List.mem_singleton] at h2
      exact hk (by simp [h2])

/-- C1: for every `consume` call on an open, online balancer, if the
local consumer's load is at most every fetched peer load then the local
consumer is invoked and no RPC call is issued; and in every case, no
RPC call that `consume` issues is addressed to the node's own id. -/
theorem C1_ties_go_local {U : Type} (rlb : RedisLoadBalancer) (env : ConsumeEnv U)
    (hopen : rlb.isOpen = true) (honline : rlb.online = true) :
    ((∀ p ∈ rlb.loads, env.localLoad ≤ p.2) →
        consume rlb env = (Except.ok env.localResult, [ConsumeAction.localConsume])) ∧
    (∀ nodeId, ConsumeAction.rpcCall nodeId ∈ (consume rlb env).2 → nodeId ≠ rlb.id) := by
  obtain ⟨p, hp⟩ := minByLoad_isSome (objUpsert_ne_nil rlb.loads rlb.id env.localLoad)
  obtain ⟨instanceId, load⟩ := p
  have hmin : getLowestLoadInfo rlb env.localLoad = some (instanceId, load) := hp
  have hmem := minByLoad_mem hp
  have hle := minByLoad_le hp _ (objUpsert_self_mem rlb.loads rlb.id env.localLoad)
  constructor
  · intro hall
    have hge : env.localLoad ≤ load := by
      by_cases hk : instanceId = rlb.id
      · have := objUpsert_key_eq hmem hk
        simp only [Prod.mk.injEq] at this
        omega
      · exact hall _ (objUpsert_mem_of_ne hmem hk)
    have hloadeq : load = env.localLoad := le_antisymm hle hge
    simp [consume, hopen, honline, hmin, hloadeq]
  · intro nodeId hmemAct
    simp only [consume, hopen, honline, Bool.not_true, Bool.false_eq_true, if_false,
      hmin] at hmemAct
    by_cases heq : load = env.localLoad
    · simp [heq] at hmemAct
    · have hbeq : (load == env.localLoad) = false := by simpa using heq
      rw [hbeq] at hmemAct
      intro hid
      subst hid
      have hinst : instanceId = rlb.id := by
        cases henv : env.rpcOutcome with
        | ok u =>
            rw [henv] at hmemAct
            simp at hmemAct
            exact hmemAct.symm
        | fail e' =>
            rw [henv] at hmemAct
            simp at hmemAct
            exact hmemAct.symm
      have hpe := objUpsert_key_eq hmem (show (instanceId, load).1 = rlb.id from hinst)
      have hl : load = env.localLoad := by
        have := congrArg Prod.snd hpe
        simpa using this
      exact heq hl

/-- C1 witness: a concrete open, online balancer whose local load 3 is
below the single peer load 7 consumes locally. -/
theorem C1_ties_go_local_witness :
    consume (RedisLoadBalancer.mk true true "self1" "global" [("peerA", 7)])
        (ConsumeEnv.mk 3 (9 : Int) (RpcOutcome.ok 0)) =
      (Except.ok 9, [ConsumeAction.localConsume]) :=
  (C1_ties_go_local _ _ rfl rfl).1 (by decide)

/-- C4: when an open, online balancer selects a remote peer (the
minimum-load entry is not at the local load) and the RPC call fails for
any reason, `consume` invokes the local consumer exactly once after the
single RPC attempt and returns the local result, surfacing no error. -/
theorem C4_rpc_failure_fallback {U : Type} (rlb : RedisLoadBalancer) (env : ConsumeEnv U)
    (instanceId : String) (load : Int) (e : RpcError)
    (hopen : rlb.isOpen = true) (honline : rlb.online = true)
    (hmin : getLowestLoadInfo rlb env.localLoad = some (instanceId, load))
    (hne : load ≠ env.localLoad) (hfail : env.rpcOutcome = RpcOutcome.fail e) :
    consume rlb env =
      (Except.ok env.localResult,
       [ConsumeAction.rpcCall instanceId, ConsumeAction.localConsume]) := by
  have hbeq : (load == env.localLoad) = false := by simpa using hne
  simp [consume, hopen, honline, hmin, hbeq, hfail]

/-- C4 witness: a concrete balancer with peer load 0 and local load 5
selects the peer, the RPC times out, and the caller still receives the
local consumer's result 7. -/
theorem C4_rpc_failure_fallback_witness :
    consume (RedisLoadBalancer.mk true true "self1" "global" [("peerA", 0)])
        (ConsumeEnv.mk 5 (7 : Int) (RpcOutcome.fail RpcError.callTimeout)) =
      (Except.ok 7, [ConsumeAction.rpcCall "peerA", ConsumeAction.localConsume]) :=
  C4_rpc_failure_fallback _ _ "peerA" 0 RpcError.callTimeout rfl rfl (by decide)
    (by decide) rfl

/-! ### The RPC call (C5) -/

theorem find?_filter_self {α : Type} (p : α → Bool) (l : List α) :
    (l.filter p).find? p = l.find? p := by
  induction l with
  | nil => rfl
  | cons x xs ih =>
      by_cases h : p x = true
      · rw [List.filter_cons_of_pos h, List.find?_cons_of_pos _ h,
          List.find?_cons_of_pos _ h]
      · rw [List.filter_cons_of_neg (by simpa using h),
          List.find?_cons_of_neg _ (by simpa using h), ih]

/-- C5: a `call` with a nonzero publish-subscriber count resolves only
with the payload of a message that arrived on the caller's own
`:result` channel bearing the call's correlation id, before the
deadline; when every such matching message is at or past the deadline
(in particular when there is none) the call fails with the timeout
error; messages on other channels or with other ids are ignored (they
can be dropped without changing the result); and the `timeout`
parameter defaults to 15000 ms. -/
theorem C5_call_correlation {U : Type} (poolId selfId correlationId : String)
    (timeout : Nat) (n : Nat) (incoming : List (TimedMessage U)) (hn : n ≠ 0) :
    (∀ u, call poolId selfId correlationId timeout n incoming = Except.ok u →
        ∃ m ∈ incoming, m.channel = rpcResultChannel poolId selfId ∧
          m.message.id = correlationId ∧ m.message.payload = u ∧ m.time < timeout) ∧
    ((∀ m ∈ incoming, m.channel = rpcResultChannel poolId selfId →
        m.message.id = correlationId → timeout ≤ m.time) →
      call poolId selfId correlationId timeout n incoming =
        Except.error RpcError.callTimeout) ∧
    (call poolId selfId correlationId timeout n incoming =
      call poolId selfId correlationId timeout n (incoming.filter (fun m =>
        m.channel == rpcResultChannel poolId selfId && m.message.id == correlationId))) ∧
    (callWithDefaultTimeout poolId selfId correlationId n incoming =
      call poolId selfId correlationId 15000 n incoming) := by
  have hn0 : (n == 0) = false := by simpa using hn
  refine ⟨?_, ?_, ?_, rfl⟩
  · intro u hok
    unfold call at hok
    rw [hn0] at hok
    simp only [Bool.false_eq_true, if_false] at hok
    cases hfind : incoming.find? (fun m =>
        m.channel == rpcResultChannel poolId selfId &&
          m.message.id == correlationId) with
    | none =>
        rw [hfind] at hok
        exact absurd hok (by simp)
    | some m =>
        rw [hfind] at hok
        have hok' : (if m.time < timeout then Except.ok m.message.payload
            else Except.error RpcError.callTimeout) = Except.ok u := hok
        by_cases ht : m.time < timeout
        · rw [if_pos ht] at hok'
          have hmem := List.mem_of_find?_eq_some hfind
          have hpred := List.find?_some hfind
          simp only [Bool.and_eq_true, beq_iff_eq] at hpred
          simp only [Except.ok.injEq] at hok'
          exact ⟨m, hmem, hpred.1, hpred.2, hok', ht⟩
        · rw [if_neg ht] at hok'
          exact absurd hok' (by simp)
  · intro hall
    unfold call
    rw [hn0]
    simp only [Bool.false_eq_true, if_false]
    cases hfind : incoming.find? (fun m =>
        m.channel == rpcResultChannel poolId selfId &&
          m.message.id == correlationId) with
    | none => rfl
    | some m =>
        have hmem := List.mem_of_find?_eq_some hfind
        have hpred := List.find?_some hfind
        simp only [Bool.and_eq_true, beq_iff_eq] at hpred
        have hlate := hall m hmem hpred.1 hpred.2
        show (if m.time < timeout then Except.ok m.message.payload
            else Except.error RpcError.callTimeout) = Except.error RpcError.callTimeout
        rw [if_neg (by omega)]
  · unfold call
    rw [find?_filter_self]

/-- C5 witness: a concrete call with correlation id `c1` resolves with
the payload 42 of the only matching message, which indeed arrived on
the caller's `:result` channel with id `c1` before the deadline. -/
theorem C5_call_correlation_witness :
    ∃ m ∈ ([TimedMessage.mk "RLB:RPC:global:n1:result"
        (PubSubMessage.mk "c1" (42 : Int) none) 100] : List (TimedMessage Int)),
      m.channel = rpcResultChannel "global" "n1" ∧ m.message.id = "c1" ∧
      m.message.payload = 42 ∧ m.time < 15000 :=
  (C5_call_correlation "global" "n1" "c1" 15000 1 _ (by decide)).1 42 (by rfl)

/-! ### Seat accounting (C6, C7) -/

theorem length_setAdd_le (l : List String) (x : String) :
    (setAdd l x).length ≤ l.length + 1 := by
  unfold setAdd
  split
  · omega
  · simp

theorem mem_setAdd_self (l : List String) (x : String) : x ∈ setAdd l x := by
  unfold setAdd
  split
  next h => exact h
  next => simp

theorem foldl_makeReservation_spec (pids : List String) (g : GameState) :
    (pids.foldl makeReservation g).players = g.players ∧
    (pids.foldl makeReservation g).playerLimit = g.playerLimit ∧
    (pids.foldl makeReservation g).registeredPlayers.length ≤
      g.registeredPlayers.length + pids.length := by
  induction pids generalizing g with
  | nil => simp
  | cons p ps ih =>
      obtain ⟨h1, h2, h3⟩ := ih (makeReservation g p)
      simp only [List.foldl_cons]
      refine ⟨h1, h2, ?_⟩
      have hs := length_setAdd_le g.registeredPlayers p
      have hr : (makeReservation g p).registeredPlayers = setAdd g.registeredPlayers p :=
        rfl
      rw [hr] at h3
      simp only [List.length_cons]
      omega

/-- C6: the seat-accounting invariant
`players + reservations ≤ capacity` is preserved by every transition of
the scheduler's reservation protocol, and both reserve-seats operations
check availability first and throw `roomFull` instead of reserving when
the needed seats are not available. -/
theorem C6_seat_invariant :
    (∀ g : GameState, seatInvariant g ↔ 0 ≤ availableSeatCount g) ∧
    (∀ g g' : GameState, seatInvariant g → SchedulerStep g g' → seatInvariant g') ∧
    (∀ (g : GameState) (pid : String) (holdTime : Nat),
        availableSeatCount g ≤ 0 →
        reserveSeats g pid holdTime = Except.error SeatError.roomFull) ∧
    (∀ (g : GameState) (pids : List String) (holdTime : Nat),
        availableSeatCount g < pids.length →
        localReserveSeats g pids holdTime = Except.error SeatError.roomFull) := by
  refine ⟨?_, ?_, ?_, ?_⟩
  · intro g
    unfold seatInvariant availableSeatCount
    omega
  · intro g g' hinv hstep
    unfold seatInvariant at hinv ⊢
    cases hstep with
    | reserve pid holdTime g' timers h =>
        unfold reserveSeats at h
        split at h
        · exact absurd h (by simp)
        next havail =>
          simp only [Except.ok.injEq, Prod.mk.injEq] at h
          obtain ⟨hg', -⟩ := h
          subst hg'
          have hlen := length_setAdd_le g.registeredPlayers pid
          unfold availableSeatCount at havail
          simp only [makeReservation]
          omega
    | reserveMany pids holdTime g' timers h =>
        unfold localReserveSeats at h
        split at h
        · exact absurd h (by simp)
        next havail =>
          simp only [Except.ok.injEq, Prod.mk.injEq] at h
          obtain ⟨hg', -⟩ := h
          subst hg'
          obtain ⟨h1, h2, h3⟩ := foldl_makeReservation_spec pids g
          unfold availableSeatCount at havail
          rw [h1, h2]
          omega
    | cancel pid =>
        have := (List.erase_sublist pid g.registeredPlayers).length_le
        simp only [cancelReservation]
        omega
    | timerFire pid =>
        by_cases hm : pid ∈ g.registeredPlayers
        · have := (List.erase_sublist pid g.registeredPlayers).length_le
          simp only [holdTimerFire, hm, if_true, cancelReservation]
          omega
        · simp only [holdTimerFire, hm, if_false]
          exact hinv
    | joinReserved pid h =>
        have hlen := List.length_erase_of_mem h
        have hpos : 0 < g.registeredPlayers.length :=
          List.length_pos.mpr (List.ne_nil_of_mem h)
        simp only [playerJoined, List.length_append, List.length_singleton]
        omega
  · intro g pid holdTime h
    unfold reserveSeats
    rw [if_pos h]
  · intro g pids holdTime h
    unfold localReserveSeats
    rw [if_pos h]

/-- C6 witness: starting from an empty two-seat game (which satisfies
the invariant), the reserve transition for one player yields a state
that satisfies the invariant. -/
theorem C6_seat_invariant_witness :
    seatInvariant (GameState.mk 2 [] ["p1"]) :=
  C6_seat_invariant.2.1 (GameState.mk 2 [] []) (GameState.mk 2 [] ["p1"])
    (by simp [seatInvariant])
    (SchedulerStep.reserve _ "p1" 10000 _ [HoldTimer.mk "p1" 10000] (by rfl))

/-- C7 counterexample: at a state holding a reservation for player `p`,
the fired hold timer removes the reservation but emits no signal at
all, refuting the claim that a load-change signal is emitted. -/
theorem C7_counterexample :
    "p" ∈ (GameState.mk 2 [] ["p"]).registeredPlayers ∧
    (holdTimerFire (GameState.mk 2 [] ["p"]) "p").1.registeredPlayers = [] ∧
    (holdTimerFire (GameState.mk 2 [] ["p"]) "p").2 = [] := by
  decide

/-- C7 amended: `reserveSeats` registers the reservation and arms a
hold timer of `reservationHoldTime` ms (default 10000) for the player;
if at firing time the player has not joined (the reservation is still
present), the timer callback removes the reservation — and emits no
signal (the source's `cancelReservation` only deletes from the set). -/
theorem C7_reservation_timeout (g : GameState) (pid : String) (holdTime : Nat) :
    (∀ g' timers, reserveSeats g pid holdTime = Except.ok (g', timers) →
        pid ∈ g'.registeredPlayers ∧ timers = [HoldTimer.mk pid holdTime]) ∧
    (pid ∈ g.registeredPlayers →
        holdTimerFire g pid = (cancelReservation g pid, [])) ∧
    defaultReservationHoldTime = 10000 := by
  refine ⟨?_, ?_, rfl⟩
  · intro g' timers h
    unfold reserveSeats at h
    split at h
    · exact absurd h (by simp)
    · simp only [Except.ok.injEq, Prod.mk.injEq] at h
      obtain ⟨hg', ht⟩ := h
      subst hg'
      exact ⟨mem_setAdd_self g.registeredPlayers pid, ht.symm⟩
  · intro hm
    simp [holdTimerFire, hm]

/-- C7 witness: on a concrete state holding a reservation for `p`, the
fired timer performs exactly the cancellation and emits nothing. -/
theorem C7_reservation_timeout_witness :
    holdTimerFire (GameState.mk 2 [] ["p"]) "p" =
      (cancelReservation (GameState.mk 2 [] ["p"]) "p", []) :=
  (C7_reservation_timeout (GameState.mk 2 [] ["p"]) "p" 10000).2.1 (by decide)

/-! ### The autoDestroy wrapper (C8) -/

/-- C8 counterexample: the observation sequence empty, non-empty, empty
has no two consecutive empty polls, yet the `filter → take(2)` pipeline
completes on it and the game is destroyed. -/
theorem C8_counterexample :
    autoDestroyFires [true, false, true] = true ∧
    specTwoConsecutiveEmpty [true, false, true] = false := by
  decide

/-- C8 amended: the game is destroyed exactly when the poll has
observed `occupants + reservations == 0` at least twice — the two empty
observations need not be consecutive; in particular a single empty
observation never destroys the game. -/
theorem C8_two_empty_observations (observations : EmptyObservations) :
    autoDestroyFires observations = true ↔
      2 ≤ (observations.filter (fun b => b)).length := by
  unfold autoDestroyFires
  rw [beq_iff_eq, List.length_take]
  omega

/-! ### Key and channel layout (C9) -/

/-- C9 counterexample: the request channel of node `abc12` in pool
`global` is `RLB:RPC:global:abc12`, not `RPC:global:abc12` as the
claim states. -/
theorem C9_counterexample :
    rpcRequestChannel "global" "abc12" ≠ "RPC:" ++ "global" ++ ":" ++ "abc12" := by
  decide

/-- C9 amended: an open, online node reports its load with a SET of key
`RDB:{poolId}:{nodeId}`, the load rendered as a decimal-integer string,
and TTL (`PX`) equal to `reportInterval` ms; RPC requests and responses
travel on `RLB:RPC:{poolId}:{nodeId}` and
`RLB:RPC:{poolId}:{nodeId}:result` respectively. -/
theorem C9_key_layout (rlb : RedisLoadBalancer) (reportInterval : Nat) (load : Int)
    (hopen : rlb.isOpen = true) (honline : rlb.online = true) :
    reportLoad rlb reportInterval load =
      (some (SetCommand.mk (redisLoadKey rlb.poolId rlb.id) (toString load)
        reportInterval), true) ∧
    redisLoadKey rlb.poolId rlb.id = "RDB:" ++ rlb.poolId ++ ":" ++ rlb.id ∧
    rpcRequestChannel rlb.poolId rlb.id = "RLB:RPC:" ++ rlb.poolId ++ ":" ++ rlb.id ∧
    rpcResultChannel rlb.poolId rlb.id =
      ("RLB:RPC:" ++ rlb.poolId ++ ":" ++ rlb.id) ++ ":result" := by
  refine ⟨?_, ?_, ?_, ?_⟩
  · simp [reportLoad, hopen, honline, RedisLoadBalancer.redisKey]
  · rw [redisLoadKey, String.append_assoc, String.append_assoc]
  · rw [rpcRequestChannel, rpcChannelRoot, String.append_assoc, String.append_assoc]
  · rw [rpcResultChannel, rpcRequestChannel, rpcChannelRoot, String.append_assoc,
      String.append_assoc]

/-- C9 witness: the concrete node `abc12` of pool `global`, open and
online with load 3, SETs key `RDB:global:abc12` to `"3"` with
`PX 30000`. -/
theorem C9_key_layout_witness :
    reportLoad (RedisLoadBalancer.mk true true "abc12" "global" []) 30000 3 =
      (some (SetCommand.mk (redisLoadKey "global" "abc12") "3" 30000), true) :=
  (C9_key_layout (RedisLoadBalancer.mk true true "abc12" "global" []) 30000 3
    rfl rfl).1

/-! ### No load report after close (C10) -/

/-- C10: `close` sets the open flag to false and deletes the node's
load key, and on a balancer that is not open every `reportLoad`
invocation — from the load-change signal path or from the still-pending
periodic timer — issues no SET at all (and does not even re-arm the
timer), so the deleted key is never re-created by this node. -/
theorem C10_closed_never_reports (rlb : RedisLoadBalancer) (reportInterval : Nat)
    (load : Int) :
    (close rlb).1.isOpen = false ∧
    (close rlb).2.deletedKey = rlb.redisKey ∧
    (rlb.isOpen = false → reportLoad rlb reportInterval load = (none, false)) := by
  refine ⟨rfl, rfl, ?_⟩
  intro h
  simp [reportLoad, h]

/-- C10 witness: a closed concrete balancer reports nothing. -/
theorem C10_closed_never_reports_witness :
    reportLoad (RedisLoadBalancer.mk false true "n1" "global" []) 30000 0 =
      (none, false) :=
  (C10_closed_never_reports (RedisLoadBalancer.mk false true "n1" "global" [])
    30000 0).2.2 rfl

/-! ### The sentinel codec round-trip (C2) -/

/-- C2 counterexample: a payload that is itself the sentinel string is
left alone by `encodeUndefined` but turned into `undefined` by
`decodeUndefined`, so the round-trip is not the identity on it. -/
theorem C2_counterexample :
    decodeUndefined (encodeUndefined (JVal.str RedisUndefined)) ≠
      JVal.str RedisUndefined := by
  have h1 : encodeUndefined (JVal.str RedisUndefined) = JVal.str RedisUndefined := by
    simp [encodeUndefined, replace, beqJVal, BEq.beq]
  have h2 : decodeUndefined (JVal.str RedisUndefined) = JVal.undef := by
    simp [decodeUndefined, replace, beqJVal, BEq.beq]
  rw [h1, h2]
  simp

/-- C2 amended: for every payload built from JSON scalars, arrays and
plain objects, possibly containing arbitrarily nested `undefined`
fields, **in which the sentinel string does not itself occur as a
value**, `decodeUndefined (encodeUndefined x) = x`: encoding replaces
every `undefined` with `"__RLB_undefined"` and decoding restores it,
keeping `null` distinct from absent. -/
theorem C2_sentinel_roundtrip (v : JVal) (h : sentinelFree v = true) :
    decodeUndefined (encodeUndefined v) = v :=
  decode_encode v h

/-- C2 witness: a concrete sentinel-free object with a nested
`undefined` and a `null` survives the round-trip unchanged. -/
theorem C2_sentinel_roundtrip_witness :
    sentinelFree (JVal.obj [("a", JVal.undef), ("b", JVal.null)]) = true ∧
    decodeUndefined (encodeUndefined (JVal.obj [("a", JVal.undef), ("b", JVal.null)])) =
      JVal.obj [("a", JVal.undef), ("b", JVal.null)] :=
  ⟨by simp [sentinelFree, sentinelFreeFields],
   C2_sentinel_roundtrip _ (by simp [sentinelFree, sentinelFreeFields])⟩

/-! ### The fetchLoads misassociation (C3) -/

/-- C3: evaluating the embedded `fetchLoads` at the failing input —
two listed keys of which the first has expired (`mget` returned
`null`) — shows the stored map associating the surviving value 5 with
the **expired** key's node id `aaaaa` instead of with `bbbbb`, because
the source filters the values before the index-based reduce while
still indexing the unfiltered key list. -/
theorem C3_fetchLoads_misassociation :
    fetchLoads [] ["RDB:global:aaaaa", "RDB:global:bbbbb"] [none, some "5"]
      = [("aaaaa", 5)] ∧
    ("bbbbb", 5) ∉
      fetchLoads [] ["RDB:global:aaaaa", "RDB:global:bbbbb"] [none, some "5"] := by
  decide

end ClientEngine
